import Mathlib

/-!
Shallow embedding of the `seismic-valentine-card` repository.

The repository consists of a client page (`src/app/page.tsx`) that assembles
and renders a valentine card, and a server API route (the avatar resolver,
`src/unnamed/part_000`, two variants; the second variant — the one returning
a `displayName` field — is the one matching the documented resolver contract
and is embedded here as `GET`).

JavaScript strings are modelled at character granularity as `List Char`
(`Str`).  JavaScript string primitives used by the source (`split(" ")`,
`trim()`, `join`/template concatenation, `charAt(0).toUpperCase()`,
`slice(1)`, `toLowerCase`, `startsWith`, `encodeURIComponent`) are given
explicit executable models below, each one a direct transcription of the
JavaScript semantics at the character level.
-/

/-- Model of a JavaScript string: a list of characters. -/
abbrev Str := List Char

/-- JavaScript `s.split(" ")`: splits at every single space, keeping empty
segments, and yields `[""]` on the empty string. -/
def jsSplitSpace : Str → List Str
  | [] => [[]]
  | c :: rest =>
    if c = ' ' then [] :: jsSplitSpace rest
    else
      match jsSplitSpace rest with
      | [] => [[c]]
      | w :: ws => (c :: w) :: ws

/-- Joining a list of segments with a single space between consecutive
segments (the inverse direction of `jsSplitSpace`). -/
def joinSp : List Str → Str
  | [] => []
  | [w] => w
  | w :: ws => w ++ ' ' :: joinSp ws

/-- JavaScript `s.trim()`: removes leading and trailing whitespace.
Whitespace is modelled by `Char.isWhitespace` (space, tab, CR, LF). -/
def jsTrim (s : Str) : Str :=
  ((s.dropWhile Char.isWhitespace).reverse.dropWhile Char.isWhitespace).reverse

/-- Worker for `wsTokens`: `cur` is the (reversed) token currently being
accumulated. -/
def wsTokGo (cur : Str) : Str → List Str
  | [] => if cur = [] then [] else [cur.reverse]
  | c :: rest =>
    if c.isWhitespace then
      if cur = [] then wsTokGo [] rest else cur.reverse :: wsTokGo [] rest
    else wsTokGo (c :: cur) rest

/-- The whitespace-separated words (maximal non-whitespace runs) of a
string, in order. -/
def wsTokens (s : Str) : List Str := wsTokGo [] s

-- Basic lemmas about the tokenizer.

/-- Tokenizing past a whitespace character splits the input. -/
theorem wsTokGo_append_ws (w : Char) (hw : w.isWhitespace = true) :
    ∀ (a : Str) (cur : Str) (b : Str),
      wsTokGo cur (a ++ w :: b) = wsTokGo cur a ++ wsTokens b := by
  intro a
  induction a with
  | nil =>
    intro cur b
    by_cases hc : cur = [] <;>
      simp [wsTokGo, hw, hc, wsTokens]
  | cons c a ih =>
    intro cur b
    by_cases hcw : c.isWhitespace
    · by_cases hc : cur = [] <;>
        simp [wsTokGo, hcw, hc, ih]
    · simp [wsTokGo, hcw, ih]

/-- A string of nothing but whitespace has no tokens, whatever is pending. -/
theorem wsTokGo_all_ws (u : Str) (hu : ∀ c ∈ u, c.isWhitespace = true) (cur : Str) :
    wsTokGo cur u = if cur = [] then [] else [cur.reverse] := by
  induction u generalizing cur with
  | nil => simp [wsTokGo]
  | cons c u ih =>
    have hc : c.isWhitespace = true := hu c (by simp)
    have hu' : ∀ c ∈ u, c.isWhitespace = true := fun d hd => hu d (by simp [hd])
    by_cases hcur : cur = []
    · simp [wsTokGo, hc, hcur, ih hu' []]
    · simp [wsTokGo, hc, hcur, ih hu' []]

/-- Appending trailing whitespace does not change the tokens. -/
theorem wsTokGo_append_all_ws (a u : Str) (hu : ∀ c ∈ u, c.isWhitespace = true)
    (cur : Str) : wsTokGo cur (a ++ u) = wsTokGo cur a := by
  induction u generalizing a cur with
  | nil => simp
  | cons w u ih =>
    have hw : w.isWhitespace = true := hu w (by simp)
    have hu' : ∀ c ∈ u, c.isWhitespace = true := fun d hd => hu d (by simp [hd])
    have h1 : wsTokGo cur (a ++ w :: u) = wsTokGo cur a ++ wsTokens u :=
      wsTokGo_append_ws w hw a cur u
    have h2 : wsTokens u = [] := by
      simpa [wsTokens] using wsTokGo_all_ws u hu' []
    simp [h1, h2]

/-- Dropping leading whitespace does not change the tokens. -/
theorem wsTokens_dropWhile_ws (s : Str) :
    wsTokens (s.dropWhile Char.isWhitespace) = wsTokens s := by
  induction s with
  | nil => simp
  | cons c s ih =>
    by_cases hc : c.isWhitespace
    · simpa [List.dropWhile_cons, hc, wsTokens, wsTokGo] using ih
    · simp [List.dropWhile_cons, hc]

/-- `jsTrim` does not change the whitespace-separated tokens of a string. -/
theorem wsTokens_jsTrim (s : Str) : wsTokens (jsTrim s) = wsTokens s := by
  unfold jsTrim
  set t := s.dropWhile Char.isWhitespace with ht
  have h1 : wsTokens t = wsTokens s := wsTokens_dropWhile_ws s
  rw [← h1]
  have hdecomp : t = (t.reverse.dropWhile Char.isWhitespace).reverse
      ++ (t.reverse.takeWhile Char.isWhitespace).reverse := by
    conv_lhs => rw [← t.reverse_reverse]
    rw [← List.reverse_append, List.takeWhile_append_dropWhile]
  have hws : ∀ c ∈ (t.reverse.takeWhile Char.isWhitespace).reverse,
      c.isWhitespace = true := by
    intro c hc
    rw [List.mem_reverse] at hc
    exact List.mem_takeWhile_imp hc
  conv_rhs => rw [hdecomp]
  exact (wsTokGo_append_all_ws _ _ hws []).symm

/-- `jsSplitSpace` always yields at least one segment. -/
theorem jsSplitSpace_ne_nil (s : Str) : jsSplitSpace s ≠ [] := by
  cases s with
  | nil => simp [jsSplitSpace]
  | cons c rest =>
    by_cases hc : c = ' '
    · simp [jsSplitSpace, hc]
    · simp only [jsSplitSpace, hc, if_false]
      cases jsSplitSpace rest <;> simp

/-- Prepending a character to the first segment commutes with `joinSp`. -/
theorem joinSp_cons_cons (c : Char) (w : Str) (ws : List Str) :
    joinSp ((c :: w) :: ws) = c :: joinSp (w :: ws) := by
  cases ws <;> rfl

/-- `joinSp` is a left inverse of `jsSplitSpace`. -/
theorem joinSp_jsSplitSpace (s : Str) : joinSp (jsSplitSpace s) = s := by
  induction s with
  | nil => rfl
  | cons c rest ih =>
    by_cases hc : c = ' '
    · obtain ⟨w, ws, hws⟩ : ∃ w ws, jsSplitSpace rest = w :: ws := by
        cases h : jsSplitSpace rest with
        | nil => exact absurd h (jsSplitSpace_ne_nil rest)
        | cons w ws => exact ⟨w, ws, rfl⟩
      rw [hws] at ih
      subst hc
      have hsplit : jsSplitSpace (' ' :: rest) = [] :: w :: ws := by
        simp [jsSplitSpace, hws]
      rw [hsplit]
      show ' ' :: joinSp (w :: ws) = ' ' :: rest
      rw [ih]
    · obtain ⟨w, ws, hws⟩ : ∃ w ws, jsSplitSpace rest = w :: ws := by
        cases h : jsSplitSpace rest with
        | nil => exact absurd h (jsSplitSpace_ne_nil rest)
        | cons w ws => exact ⟨w, ws, rfl⟩
      rw [hws] at ih
      simp only [jsSplitSpace, hc, if_false, hws, joinSp_cons_cons, ih]

/-- No segment produced by `jsSplitSpace` contains a space. -/
theorem jsSplitSpace_no_space (s : Str) : ∀ w ∈ jsSplitSpace s, ' ' ∉ w := by
  induction s with
  | nil => simp [jsSplitSpace]
  | cons c rest ih =>
    by_cases hc : c = ' '
    · simpa [jsSplitSpace, hc] using ih
    · obtain ⟨w, ws, hws⟩ : ∃ w ws, jsSplitSpace rest = w :: ws := by
        cases h : jsSplitSpace rest with
        | nil => exact absurd h (jsSplitSpace_ne_nil rest)
        | cons w ws => exact ⟨w, ws, rfl⟩
      rw [hws] at ih
      simp only [jsSplitSpace, hc, if_false, hws]
      intro v hv
      rcases List.mem_cons.mp hv with h | h
      · subst h
        intro habs
        rcases List.mem_cons.mp habs with h' | h'
        · exact hc h'.symm
        · exact ih w (by simp) h'
      · exact ih v (by simp [h])

/-- Splitting a space-free segment gives back just that segment. -/
theorem jsSplitSpace_no_space_eq (w : Str) (hw : ' ' ∉ w) : jsSplitSpace w = [w] := by
  induction w with
  | nil => rfl
  | cons c rest ih =>
    have hc : ¬ c = ' ' := fun h => hw (by simp [h])
    have hrest : ' ' ∉ rest := fun h => hw (by simp [h])
    simp [jsSplitSpace, hc, ih hrest]

/-- Splitting across an explicit space after a space-free segment. -/
theorem jsSplitSpace_append_space (w t : Str) (hw : ' ' ∉ w) :
    jsSplitSpace (w ++ ' ' :: t) = w :: jsSplitSpace t := by
  induction w with
  | nil => simp [jsSplitSpace]
  | cons c rest ih =>
    have hc : ¬ c = ' ' := fun h => hw (by simp [h])
    have hrest : ' ' ∉ rest := fun h => hw (by simp [h])
    simp [jsSplitSpace, hc, ih hrest]

/-- `jsSplitSpace` is a left inverse of `joinSp` on space-free segments. -/
theorem jsSplitSpace_joinSp (ws : List Str) (hne : ws ≠ [])
    (hsp : ∀ w ∈ ws, ' ' ∉ w) : jsSplitSpace (joinSp ws) = ws := by
  induction ws with
  | nil => exact absurd rfl hne
  | cons w ws ih =>
    cases ws with
    | nil => simpa [joinSp] using jsSplitSpace_no_space_eq w (hsp w (by simp))
    | cons v vs =>
      have h1 : joinSp (w :: v :: vs) = w ++ ' ' :: joinSp (v :: vs) := rfl
      rw [h1, jsSplitSpace_append_space w _ (hsp w (by simp)),
        ih (by simp) (fun u hu => hsp u (by simp [hu]))]

/-- Tokens of a space-joined list are the concatenation of each part's
tokens. -/
theorem wsTokens_joinSp (ws : List Str) :
    wsTokens (joinSp ws) = ws.flatMap wsTokens := by
  induction ws with
  | nil => simp [joinSp, wsTokens, wsTokGo]
  | cons w ws ih =>
    cases ws with
    | nil => simp [joinSp]
    | cons v vs =>
      have h1 : joinSp (w :: v :: vs) = w ++ ' ' :: joinSp (v :: vs) := rfl
      rw [wsTokens, h1, wsTokGo_append_ws ' ' (by decide) w [] (joinSp (v :: vs))]
      rw [ih]
      simp [wsTokens]

/-- Splitting on spaces and re-tokenizing each segment recovers exactly the
whitespace tokens of the original string. -/
theorem wsTokens_jsSplitSpace (s : Str) :
    (jsSplitSpace s).flatMap wsTokens = wsTokens s := by
  rw [← wsTokens_joinSp, joinSp_jsSplitSpace]

/-!
Embedding of `wrapText` (`src/app/page.tsx`, lines 45–70).  The canvas
context is abstracted to the one capability `wrapText` uses from it:
`measureText`, modelled as an arbitrary function `measure : Str → ℚ`
(canvas text metrics are opaque to the algorithm).  Instead of issuing
`fillText` draw calls, the model returns the list of drawn lines in order;
the running `currentY` coordinate does not influence which text is drawn
and is omitted.
-/

/-- The concatenation of the segments of `seg`, each followed by one space:
the shape of the `line` accumulator in `wrapText`. -/
def flatSp (seg : List Str) : Str := seg.flatMap (fun w => w ++ [' '])

/-- Loop of `wrapText` over the space-split words, carrying the word index
`i` and the current `line` accumulator; returns the drawn lines in order. -/
def wrapTextGo (measure : Str → ℚ) (maxWidth : ℚ) :
    List Str → Nat → Str → List Str
  | [], _, line => [jsTrim line]
  | w :: rest, i, line =>
    let testLine := line ++ w ++ [' ']
    if maxWidth < measure testLine ∧ 0 < i then
      jsTrim line :: wrapTextGo measure maxWidth rest (i + 1) (w ++ [' '])
    else
      wrapTextGo measure maxWidth rest (i + 1) testLine

/-- `wrapText(ctx, text, x, y, maxWidth, lineHeight)`: splits `text` on
single spaces and greedily fills lines, breaking before a word when the
test line overflows `maxWidth` (never before the first word); each drawn
line is trimmed.  Returns the drawn lines. -/
def wrapText (measure : Str → ℚ) (text : Str) (maxWidth : ℚ) : List Str :=
  wrapTextGo measure maxWidth (jsSplitSpace text) 0 []

/-- Tokens of a space-suffixed concatenation of segments. -/
theorem wsTokens_flatSp (seg : List Str) :
    wsTokens (flatSp seg) = seg.flatMap wsTokens := by
  induction seg with
  | nil => simp [flatSp, wsTokens, wsTokGo]
  | cons w seg ih =>
    have h1 : flatSp (w :: seg) = w ++ ' ' :: flatSp seg := by
      simp [flatSp]
    rw [wsTokens, h1, wsTokGo_append_ws ' ' (by decide) w [] (flatSp seg)]
    rw [show wsTokGo [] w = wsTokens w from rfl, ih]
    simp

/-- The accumulator shape grows by one word in the non-breaking branch. -/
theorem flatSp_append_one (seg : List Str) (w : Str) :
    flatSp (seg ++ [w]) = flatSp seg ++ w ++ [' '] := by
  simp [flatSp]

/-- Invariant of the `wrapText` loop: with pending segment `seg` in the
accumulator, the whitespace tokens of all drawn lines are exactly the
tokens of `seg` followed by the tokens of the remaining words. -/
theorem wrapTextGo_tokens (measure : Str → ℚ) (maxWidth : ℚ) (ws : List Str) :
    ∀ (i : Nat) (seg : List Str),
      (wrapTextGo measure maxWidth ws i (flatSp seg)).flatMap wsTokens
        = seg.flatMap wsTokens ++ ws.flatMap wsTokens := by
  induction ws with
  | nil =>
    intro i seg
    simp [wrapTextGo, wsTokens_jsTrim, wsTokens_flatSp]
  | cons w rest ih =>
    intro i seg
    rw [wrapTextGo]
    by_cases hbr : maxWidth < measure (flatSp seg ++ w ++ [' ']) ∧ 0 < i
    · rw [if_pos hbr]
      have hline : w ++ [' '] = flatSp [w] := by simp [flatSp]
      rw [List.flatMap_cons, wsTokens_jsTrim, wsTokens_flatSp, hline,
        ih (i + 1) [w]]
      simp
    · rw [if_neg hbr]
      have hline : flatSp seg ++ w ++ [' '] = flatSp (seg ++ [w]) := by
        simp [flatSp]
      rw [hline, ih (i + 1) (seg ++ [w])]
      simp

/-!
Embedding of the small pure helpers of `src/app/page.tsx`.
-/

/-- JavaScript `w.charAt(0).toUpperCase() + w.slice(1)` — the per-word body
of `capitalize`.  On an empty word, `charAt(0)` is `""` and `slice(1)` is
`""`, so the word maps to itself. -/
def jsCapWord : Str → Str
  | [] => []
  | c :: cs => c.toUpper :: cs

/-- `capitalize` (`src/app/page.tsx`, lines 19–24): split on spaces,
uppercase the first character of each word, join back with spaces. -/
def capitalize (name : Str) : Str :=
  joinSp ((jsSplitSpace name).map jsCapWord)

/-- Hexadecimal digit characters, uppercase, as produced by
`encodeURIComponent`. -/
def hexDigit (n : Nat) : Char :=
  if n < 10 then Char.ofNat (48 + n) else Char.ofNat (55 + n)

/-- UTF-8 bytes of a code point (as natural numbers below 256). -/
def utf8Bytes (n : Nat) : List Nat :=
  if n < 0x80 then [n]
  else if n < 0x800 then [0xC0 + n / 0x40, 0x80 + n % 0x40]
  else if n < 0x10000 then
    [0xE0 + n / 0x1000, 0x80 + (n / 0x40) % 0x40, 0x80 + n % 0x40]
  else
    [0xF0 + n / 0x40000, 0x80 + (n / 0x1000) % 0x40,
      0x80 + (n / 0x40) % 0x40, 0x80 + n % 0x40]

/-- Characters `encodeURIComponent` leaves unescaped: alphanumerics and
`- _ . ! ~ * ' ( )`. -/
def uriUnreserved (c : Char) : Bool :=
  c.isAlphanum || c = '-' || c = '_' || c = '.' || c = '!' || c = '~'
    || c = '*' || c = '\'' || c = '(' || c = ')'

/-- JavaScript `encodeURIComponent`: unreserved characters pass through,
every other character becomes the percent-encoding of its UTF-8 bytes. -/
def encodeURIComponent (s : Str) : Str :=
  s.flatMap fun c =>
    if uriUnreserved c then [c]
    else (utf8Bytes c.toNat).flatMap fun b =>
      ['%', hexDigit (b / 16), hexDigit (b % 16)]

/-- `getFallbackAvatar` (`src/app/page.tsx`, lines 15–17): the DiceBear
identicon URL for a seed. -/
def getFallbackAvatar (seed : Str) : Str :=
  "https://api.dicebear.com/7.x/identicon/svg?seed=".data
    ++ encodeURIComponent seed ++ "&backgroundColor=9E7B9F".data

/-- The fallback avatar URL is never the empty string. -/
theorem getFallbackAvatar_ne_nil (seed : Str) : getFallbackAvatar seed ≠ [] := by
  unfold getFallbackAvatar
  intro h
  have := congrArg List.length h
  simp [List.length_append] at this

/-- `baseFontSize` in `renderCardToCanvas` (`src/app/page.tsx`, line 152):
`msgLen <= 40 ? 24 : msgLen <= 80 ? 20 : msgLen <= 120 ? 18 :
msgLen <= 160 ? 16 : 14`. -/
def baseFontSize (msgLen : Nat) : Nat :=
  if msgLen ≤ 40 then 24
  else if msgLen ≤ 80 then 20
  else if msgLen ≤ 120 then 18
  else if msgLen ≤ 160 then 16
  else 14

/-- `baseMsgFont` in `CardStep` (`src/app/page.tsx`, line 472): the same
step function, computed for the HTML preview. -/
def baseMsgFont (msgLen : Nat) : Nat :=
  if msgLen ≤ 40 then 24
  else if msgLen ≤ 80 then 20
  else if msgLen ≤ 120 then 18
  else if msgLen ≤ 160 then 16
  else 14

/-!
Embedding of the card-data assembler (`handleGenerate`, `src/app/page.tsx`
lines 258–289) and the form validity check (`FormStep`, line 368).

The two `fetch("/api/discord-avatar?...")` calls are modelled by explicit
outcome values: the promise may reject (`cthrow`), or resolve to a response
whose `ok` flag and parsed JSON body (which may itself fail to parse) are
given.  JavaScript truthiness of a nullable string (`null`, `undefined`
and `""` are falsy) is modelled by `jsTruthy`.
-/

/-- Truthiness of a JavaScript `string | null | undefined` value. -/
def jsTruthy : Option Str → Bool
  | none => false
  | some s => !s.isEmpty

/-- JavaScript `a || b` on a nullable string `a` with string default `b`. -/
def jsOrElse (a : Option Str) (b : Str) : Str :=
  if jsTruthy a then a.getD [] else b

/-- Outcome of parsing a client fetch response body: `res.json()` may
throw, or yield an object whose `avatarUrl` field is a string or null. -/
inductive ClientBody where
  | bthrow : ClientBody
  | val : Option Str → ClientBody

/-- Outcome of one client `fetch` call: rejection, or a response with its
`ok` flag and body. -/
inductive ClientFetch where
  | cthrow : ClientFetch
  | resp : Bool → ClientBody → ClientFetch

/-- The value held by the `senderAvatar` / `receiverAvatar` local after the
corresponding `if (username.trim()) try ... catch` block of
`handleGenerate`: it stays `null` unless the handle is non-empty, the fetch
resolves with `res.ok`, and the JSON body parses. -/
def avatarFromFetch (username : Str) (f : ClientFetch) : Option Str :=
  if (jsTrim username).isEmpty then none
  else
    match f with
    | .cthrow => none
    | .resp ok body =>
      if ok then
        match body with
        | .bthrow => none
        | .val u => u
      else none

/-- `CardData` (`src/app/page.tsx`, lines 5–13). -/
structure CardData where
  senderUsername : Str
  senderName : Str
  receiverUsername : Str
  receiverName : Str
  message : Str
  senderAvatar : Option Str
  receiverAvatar : Option Str
deriving Repr, DecidableEq

/-- The form fields feeding `handleGenerate`. -/
structure FormState where
  senderUsername : Str
  senderName : Str
  receiverUsername : Str
  receiverName : Str
  message : Str
deriving Repr, DecidableEq

/-- `handleGenerate` (`src/app/page.tsx`, lines 258–289): returns the
`CardData` passed to `setCardData`, or `none` when the early guard
`if (!senderName.trim() || !receiverName.trim()) return;` fires.  `sf` and
`rf` are the outcomes of the sender and receiver avatar lookups. -/
def handleGenerate (st : FormState) (sf rf : ClientFetch) : Option CardData :=
  if (jsTrim st.senderName).isEmpty || (jsTrim st.receiverName).isEmpty then
    none
  else
    let senderAvatar := avatarFromFetch st.senderUsername sf
    let receiverAvatar := avatarFromFetch st.receiverUsername rf
    some
      { senderUsername := jsTrim st.senderUsername
        senderName := jsTrim st.senderName
        receiverUsername := jsTrim st.receiverUsername
        receiverName := jsTrim st.receiverName
        message := jsTrim st.message
        senderAvatar := some (jsOrElse senderAvatar
          (getFallbackAvatar (jsOrElse (some (jsTrim st.senderUsername))
            (jsTrim st.senderName))))
        receiverAvatar := some (jsOrElse receiverAvatar
          (getFallbackAvatar (jsOrElse (some (jsTrim st.receiverUsername))
            (jsTrim st.receiverName)))) }

/-- `isValid` in `FormStep` (`src/app/page.tsx`, line 368): truthiness of
`senderName.trim() && receiverName.trim()`, which gates the generate
button (`disabled(loading or not isValid)`). -/
def isValid (st : FormState) : Bool :=
  !(jsTrim st.senderName).isEmpty && !(jsTrim st.receiverName).isEmpty

/-!
Embedding of the avatar-lookup API route (`src/unnamed/part_000`, the
variant at lines 104–179, whose responses carry both `avatarUrl` and
`displayName`).  The route's observable inputs are the two environment
variables, the `username` query parameter, and the outcome of the one
`fetch` to the directory (Discord) member-search endpoint; its observable
outputs are the JSON response plus whether a network call was attempted.
The `console.error` logging has no effect on the response and is not
modelled; the `await res.text()` inside the `!res.ok` branch can itself
throw, but that exception lands in the surrounding `catch`, which returns
the same `avatarUrl: null, displayName: null` response, so both paths are
modelled by the single `!ok` branch.
-/

/-- A Discord user object as consumed by the route: snowflake `id`,
`username`, optional `global_name` and optional custom `avatar` hash. -/
structure DUser where
  id : Str
  username : Str
  global_name : Option Str
  avatar : Option Str
deriving Repr, DecidableEq

/-- A guild member search result: nested `user`, optional guild `nick` and
optional guild-scoped `avatar` hash. -/
structure Member where
  user : DUser
  nick : Option Str
  avatar : Option Str
deriving Repr, DecidableEq

/-- The two environment variables read by the route. -/
structure Env where
  DISCORD_BOT_TOKEN : Option Str
  DISCORD_GUILD_ID : Option Str
deriving Repr, DecidableEq

/-- Outcome of `res.json()`: it may throw, or produce a member list (or a
null/absent value). -/
inductive JsonBody where
  | jthrow : JsonBody
  | jvalue : Option (List Member) → JsonBody
deriving Repr, DecidableEq

/-- Outcome of the `fetch` to the directory: the promise may reject
(`fthrow`), or resolve to a response with its `ok` flag, HTTP status,
body-parse outcome, and whether `res.text()` would throw. -/
inductive FetchOutcome where
  | fthrow : FetchOutcome
  | response : Bool → Nat → JsonBody → Bool → FetchOutcome
deriving Repr, DecidableEq

/-- The JSON payload (plus HTTP status) of a route response.  Absent JSON
fields are modelled as `none`. -/
structure ApiResponse where
  status : Nat
  error : Option Str
  avatarUrl : Option Str
  displayName : Option Str
  message : Option Str
  username : Option Str
deriving Repr, DecidableEq

/-- The `avatarUrl: null, displayName: null` response body. -/
def nullResponse : ApiResponse :=
  { status := 200, error := none, avatarUrl := none, displayName := none
    message := none, username := none }

/-- JavaScript `s.toLowerCase()`, at character granularity. -/
def jsToLower (s : Str) : Str := s.map Char.toLower

/-- Case-insensitive equality as written in the route:
`a.toLowerCase() === b.toLowerCase()`. -/
def lowerEq (a b : Str) : Bool := jsToLower a = jsToLower b

/-- The predicate of the route's `members.find(...)`: primary username,
guild nickname (when truthy), or global display name (when truthy), each
compared case-insensitively against the query. -/
def isExactMatch (username : Str) (m : Member) : Bool :=
  lowerEq m.user.username username
    || (jsTruthy m.nick && lowerEq (m.nick.getD []) username)
    || (jsTruthy m.user.global_name
        && lowerEq (m.user.global_name.getD []) username)

/-- Decimal digits of a natural number (JavaScript number-to-string for a
non-negative integer). -/
def natDec (n : Nat) : Str := Nat.toDigits 10 n

/-- JavaScript template interpolation of a (possibly negative) integer. -/
def intDec (i : Int) : Str :=
  if i < 0 then '-' :: natDec i.natAbs else natDec i.natAbs

/-- `parseInt` on a decimal digit string, modelled as exact decimal
conversion.  (JavaScript `parseInt` yields a 64-bit float, exact for
values below `2^53`; the theorems below only evaluate it on such values.) -/
def parseIntDec (s : Str) : Nat :=
  s.foldl (fun a c => 10 * a + (c.toNat - 48)) 0

/-- JavaScript `ToInt32`: reduce modulo `2^32` into `[-2^31, 2^31)`. -/
def toInt32 (n : Nat) : Int :=
  if n % 2 ^ 32 < 2 ^ 31 then (n % 2 ^ 32 : Nat)
  else (n % 2 ^ 32 : Nat) - 2 ^ 32

/-- JavaScript `x >> k` on an int32 value: arithmetic (floor) shift. -/
def jsShr (x : Int) (k : Nat) : Int := Int.fdiv x (2 ^ k)

/-- JavaScript `%`: remainder truncated toward zero (sign of dividend). -/
def jsRem (a b : Int) : Int := Int.tmod a b

/-- The default-avatar index as the route computes it:
`(parseInt(user.id) >> 22) % 6`. -/
def defaultAvatarIndex (id : Str) : Int :=
  jsRem (jsShr (toInt32 (parseIntDec id)) 22) 6

/-- The default-avatar index as the other route variant
(`src/unnamed/part_000`, lines 62–70) computes it with exact `BigInt`
arithmetic: `(BigInt(user.id) >> 22n) % 6n`. -/
def bigIntDefaultIndex (id : Str) : Nat :=
  (parseIntDec id >>> 22) % 6

/-- File extension choice: `avatarHash.startsWith("a_") ? "gif" : "png"`. -/
def animExt (av : Str) : Str :=
  match av with
  | 'a' :: '_' :: _ => "gif".data
  | _ => "png".data

/-- The avatar URL built for the selected member (route lines 151–168):
guild-scoped avatar first, then the account avatar, then the default
avatar derived from the account id. -/
def buildAvatarUrl (guildId : Str) (m : Member) : Str :=
  if jsTruthy m.avatar then
    "https://cdn.discordapp.com/guilds/".data ++ guildId
      ++ "/users/".data ++ m.user.id ++ "/avatars/".data ++ m.avatar.getD []
      ++ ".".data ++ animExt (m.avatar.getD []) ++ "?size=256".data
  else if jsTruthy m.user.avatar then
    "https://cdn.discordapp.com/avatars/".data ++ m.user.id ++ "/".data
      ++ m.user.avatar.getD [] ++ ".".data ++ animExt (m.user.avatar.getD [])
      ++ "?size=256".data
  else
    "https://cdn.discordapp.com/embed/avatars/".data
      ++ intDec (defaultAvatarIndex m.user.id) ++ ".png".data

/-- `member.nick || user.global_name || user.username`. -/
def memberDisplayName (m : Member) : Str :=
  jsOrElse m.nick (jsOrElse m.user.global_name m.user.username)

/-- The success response built for the selected member. -/
def foundResponse (guildId : Str) (m : Member) : ApiResponse :=
  { status := 200, error := none
    avatarUrl := some (buildAvatarUrl guildId m)
    displayName := some (memberDisplayName m)
    message := none, username := some m.user.username }

/-- `GET` (`src/unnamed/part_000`, lines 104–179): the full route handler.
Returns the response together with a flag recording whether the directory
`fetch` was attempted. -/
def GET (env : Env) (username : Option Str) (net : FetchOutcome) :
    ApiResponse × Bool :=
  if !jsTruthy username then
    ({ status := 400, error := some "Username required".data, avatarUrl := none
       displayName := none, message := none, username := none }, false)
  else if !jsTruthy env.DISCORD_BOT_TOKEN || !jsTruthy env.DISCORD_GUILD_ID then
    ({ status := 200, error := none, avatarUrl := none, displayName := none
       message := some "Discord bot not configured.".data, username := none },
      false)
  else
    match net with
    | .fthrow => (nullResponse, true)
    | .response ok _status body _textThrow =>
      if !ok then (nullResponse, true)
      else
        match body with
        | .jthrow => (nullResponse, true)
        | .jvalue none => (nullResponse, true)
        | .jvalue (some []) => (nullResponse, true)
        | .jvalue (some (m0 :: ms)) =>
          let uname := username.getD []
          let member := ((m0 :: ms).find? (isExactMatch uname)).getD m0
          (foundResponse (env.DISCORD_GUILD_ID.getD []) member, true)

/-- A fetch outcome representing a network or parsing failure: the promise
rejected, the response was not `ok`, or the JSON body failed to parse. -/
def isNetFailure : FetchOutcome → Bool
  | .fthrow => true
  | .response ok _ body _ =>
    !ok || (match body with | .jthrow => true | .jvalue _ => false)

-- Helper lemmas used by the claim theorems.

/-- `jsOrElse` of anything with a non-empty default is non-empty. -/
theorem jsOrElse_ne_nil (a : Option Str) (b : Str) (hb : b ≠ []) :
    jsOrElse a b ≠ [] := by
  unfold jsOrElse jsTruthy
  cases a with
  | none => simpa using hb
  | some s =>
    by_cases hs : s.isEmpty
    · simpa [hs] using hb
    · simp only [hs, Bool.not_false, if_true, Option.getD_some]
      simpa [List.isEmpty_iff] using hs

/-- `jsOrElse` on an absent value yields the default. -/
theorem jsOrElse_none (b : Str) : jsOrElse none b = b := rfl

/-- `jsOrElse` on a present value selects by emptiness. -/
theorem jsOrElse_some (s b : Str) :
    jsOrElse (some s) b = if s.isEmpty then b else s := by
  unfold jsOrElse jsTruthy
  by_cases hs : s.isEmpty <;> simp [hs]

/-- Round-trip of a valid code point through `Char.ofNat`. -/
theorem charToNat_ofNat_valid (n : Nat) (h : n.isValidChar) :
    (Char.ofNat n).toNat = n := by
  have hlt : n < 2 ^ 32 := by
    rcases h with h | ⟨h1, h2⟩ <;> omega
  simp only [Char.ofNat, dif_pos h, Char.ofNatAux, Char.toNat]
  simp [UInt32.toNat, BitVec.toNat_ofNat, Nat.mod_eq_of_lt hlt]

/-- `Char.toUpper` maps nothing new onto the space character. -/
theorem toUpper_eq_space_iff (c : Char) : c.toUpper = ' ' ↔ c = ' ' := by
  constructor
  · intro h
    unfold Char.toUpper at h
    by_cases hc : c.toNat ≥ 97 ∧ c.toNat ≤ 122
    · exfalso
      rw [if_pos hc] at h
      obtain ⟨h1, h2⟩ := hc
      have hval : (c.toNat - 32).isValidChar := by
        left
        omega
      have htn : (Char.ofNat (c.toNat - 32)).toNat = c.toNat - 32 :=
        charToNat_ofNat_valid _ hval
      have h32 : (Char.ofNat (c.toNat - 32)).toNat = 32 := by
        rw [h]
        rfl
      omega
    · rw [if_neg hc] at h
      exact h
  · intro h
    subst h
    decide

/-- `jsCapWord` introduces no space characters. -/
theorem jsCapWord_no_space {w : Str} (hw : ' ' ∉ w) : ' ' ∉ jsCapWord w := by
  cases w with
  | nil => simp [jsCapWord]
  | cons c cs =>
    simp only [jsCapWord]
    intro h
    rcases List.mem_cons.mp h with h | h
    · exact hw (by simp [(toUpper_eq_space_iff c).mp h.symm])
    · exact hw (by simp [h])

/-!
Claim theorems.
-/

/-- Claim C9: `getFallbackAvatar` is a deterministic pure function of its
seed — equal seeds always yield the same URL.  (It is a total Lean
function: no network I/O, cannot fail.) -/
theorem fallback_avatar_deterministic (s : Str) :
    getFallbackAvatar s = getFallbackAvatar s := rfl

/-- Claim C7: `capitalize` uppercases the first character of each
space-separated word and leaves every remaining character unchanged:
word-for-word, splitting the result on spaces gives exactly the
`jsCapWord` image of the split input, and `jsCapWord` uppercases exactly
the head character of a word; in particular
`capitalize "mary ann" = "Mary Ann"` and `capitalize "" = ""`. -/
theorem capitalize_spec (s : Str) :
    jsSplitSpace (capitalize s) = (jsSplitSpace s).map jsCapWord
      ∧ (∀ (c : Char) (cs : Str), jsCapWord (c :: cs) = c.toUpper :: cs)
      ∧ jsCapWord [] = []
      ∧ capitalize "mary ann".data = "Mary Ann".data
      ∧ capitalize [] = [] := by
  refine ⟨?_, fun c cs => rfl, rfl, by decide, by decide⟩
  unfold capitalize
  apply jsSplitSpace_joinSp
  · intro h
    exact jsSplitSpace_ne_nil s (List.map_eq_nil_iff.mp h)
  · intro w hw
    rw [List.mem_map] at hw
    obtain ⟨v, hv, rfl⟩ := hw
    exact jsCapWord_no_space (jsSplitSpace_no_space s v hv)

/-- Claim C6: the rendered message font size is the fixed step function of
the message's character length with thresholds 40/80/120/160 mapping to
24/20/18/16/14 points, identically in the canvas renderer
(`baseFontSize`) and the HTML preview (`baseMsgFont`); in particular
lengths 30, 60, 100, 150 and 180 map to 24, 20, 18, 16 and 14 points. -/
theorem message_font_step (msg : Str) :
    (baseFontSize msg.length = 24 ↔ msg.length ≤ 40)
      ∧ (baseFontSize msg.length = 20 ↔ (40 < msg.length ∧ msg.length ≤ 80))
      ∧ (baseFontSize msg.length = 18 ↔ (80 < msg.length ∧ msg.length ≤ 120))
      ∧ (baseFontSize msg.length = 16 ↔ (120 < msg.length ∧ msg.length ≤ 160))
      ∧ (baseFontSize msg.length = 14 ↔ 160 < msg.length)
      ∧ baseMsgFont msg.length = baseFontSize msg.length
      ∧ baseFontSize 30 = 24 ∧ baseFontSize 60 = 20 ∧ baseFontSize 100 = 18
      ∧ baseFontSize 150 = 16 ∧ baseFontSize 180 = 14 := by
  refine ⟨?_, ?_, ?_, ?_, ?_, ?_, by decide, by decide, by decide, by decide,
    by decide⟩ <;>
    simp only [baseFontSize, baseMsgFont] <;> split_ifs <;> omega

/-- Claim C10: `wrapText` draws every whitespace-separated word of the
text exactly once and in order across the emitted lines — concatenating
the whitespace tokens of the drawn lines yields exactly the whitespace
tokens of the input, for every measuring function and maximum width. -/
theorem wrapText_preserves_words (measure : Str → ℚ) (maxWidth : ℚ)
    (text : Str) :
    (wrapText measure text maxWidth).flatMap wsTokens = wsTokens text := by
  have h := wrapTextGo_tokens measure maxWidth (jsSplitSpace text) 0 []
  rw [show flatSp [] = [] from rfl] at h
  rw [wrapText, h]
  simp [wsTokens_jsSplitSpace]

/-- Claim C8: when either display name trims to empty, `handleGenerate`
is a no-op — it produces no `CardData` (and, being a total function,
raises no error) — and the form's `isValid` flag is false, so the only
user feedback is the disabled generate button. -/
theorem empty_name_noop (st : FormState) (sf rf : ClientFetch)
    (h : (jsTrim st.senderName).isEmpty = true
      ∨ (jsTrim st.receiverName).isEmpty = true) :
    handleGenerate st sf rf = none ∧ isValid st = false := by
  unfold handleGenerate isValid
  rcases h with h | h <;> simp [h]

/-- Witness for C8 at a whitespace-only sender name. -/
theorem empty_name_noop_witness :
    ((jsTrim "  ".data).isEmpty = true ∨ (jsTrim "bob".data).isEmpty = true)
      ∧ handleGenerate ⟨[], "  ".data, [], "bob".data, []⟩
          ClientFetch.cthrow ClientFetch.cthrow = none
      ∧ isValid ⟨[], "  ".data, [], "bob".data, []⟩ = false :=
  ⟨Or.inl (by decide),
    empty_name_noop ⟨[], "  ".data, [], "bob".data, []⟩
      ClientFetch.cthrow ClientFetch.cthrow (Or.inl (by decide))⟩

/-- Claim C1: whenever both display names are non-empty after trimming,
`handleGenerate` produces a `CardData` whose avatar fields are non-empty
strings, and whenever a party's avatar lookup yielded nothing (no handle,
resolver `null`, or error) that avatar is the fallback generator applied
to the party's trimmed handle if non-empty, else its trimmed name. -/
theorem assemble_avatars_nonempty (st : FormState) (sf rf : ClientFetch)
    (hs : (jsTrim st.senderName).isEmpty = false)
    (hr : (jsTrim st.receiverName).isEmpty = false) :
    ∃ cd : CardData, handleGenerate st sf rf = some cd
      ∧ (∃ a : Str, cd.senderAvatar = some a ∧ a ≠ [])
      ∧ (∃ a : Str, cd.receiverAvatar = some a ∧ a ≠ [])
      ∧ (avatarFromFetch st.senderUsername sf = none →
          cd.senderAvatar = some (getFallbackAvatar
            (if (jsTrim st.senderUsername).isEmpty then jsTrim st.senderName
             else jsTrim st.senderUsername)))
      ∧ (avatarFromFetch st.receiverUsername rf = none →
          cd.receiverAvatar = some (getFallbackAvatar
            (if (jsTrim st.receiverUsername).isEmpty then jsTrim st.receiverName
             else jsTrim st.receiverUsername))) := by
  unfold handleGenerate
  rw [hs, hr]
  simp only [Bool.or_self, Bool.false_eq_true, if_false]
  refine ⟨_, rfl, ?_, ?_, ?_, ?_⟩
  · exact ⟨_, rfl, jsOrElse_ne_nil _ _ (getFallbackAvatar_ne_nil _)⟩
  · exact ⟨_, rfl, jsOrElse_ne_nil _ _ (getFallbackAvatar_ne_nil _)⟩
  · intro h
    simp only [h, jsOrElse_none, jsOrElse_some]
  · intro h
    simp only [h, jsOrElse_none, jsOrElse_some]

/-- Witness for C1 with names `ann`/`bob`, no handles, both lookups
rejected. -/
theorem assemble_avatars_nonempty_witness :
    (jsTrim "ann".data).isEmpty = false
      ∧ (jsTrim "bob".data).isEmpty = false
      ∧ ∃ cd : CardData,
          handleGenerate ⟨[], "ann".data, [], "bob".data, "hi".data⟩
              ClientFetch.cthrow ClientFetch.cthrow = some cd
            ∧ (∃ a : Str, cd.senderAvatar = some a ∧ a ≠ [])
            ∧ (∃ a : Str, cd.receiverAvatar = some a ∧ a ≠ [])
            ∧ (avatarFromFetch [] ClientFetch.cthrow = none →
                cd.senderAvatar = some (getFallbackAvatar
                  (if (jsTrim ([] : Str)).isEmpty then jsTrim "ann".data
                   else jsTrim ([] : Str))))
            ∧ (avatarFromFetch [] ClientFetch.cthrow = none →
                cd.receiverAvatar = some (getFallbackAvatar
                  (if (jsTrim ([] : Str)).isEmpty then jsTrim "bob".data
                   else jsTrim ([] : Str)))) :=
  ⟨by decide, by decide,
    assemble_avatars_nonempty ⟨[], "ann".data, [], "bob".data, "hi".data⟩
      ClientFetch.cthrow ClientFetch.cthrow (by decide) (by decide)⟩

/-- Claim C2: whenever the handle parameter is present (non-empty), the
route converts every network or parsing failure of the directory lookup
into a 200 response with `avatarUrl: null` and `displayName: null`; being
a total function over all fetch outcomes, it propagates no exception. -/
theorem resolver_failure_yields_nulls (env : Env) (username : Option Str)
    (net : FetchOutcome) (hu : jsTruthy username = true)
    (hf : isNetFailure net = true) :
    (GET env username net).1.status = 200
      ∧ (GET env username net).1.avatarUrl = none
      ∧ (GET env username net).1.displayName = none := by
  unfold GET
  by_cases hcfg :
      (!jsTruthy env.DISCORD_BOT_TOKEN || !jsTruthy env.DISCORD_GUILD_ID) = true
  · simp [hu, hcfg]
  · rw [Bool.not_eq_true] at hcfg
    cases net with
    | fthrow => simp [hu, hcfg, nullResponse]
    | response ok status body tthrow =>
      cases ok with
      | false => simp [hu, hcfg, nullResponse]
      | true =>
        cases body with
        | jthrow => simp [hu, hcfg, nullResponse]
        | jvalue ms =>
          exfalso
          simp [isNetFailure] at hf

/-- Witness for C2: a configured environment and a rejected fetch. -/
theorem resolver_failure_yields_nulls_witness :
    jsTruthy (some "ann".data) = true
      ∧ isNetFailure FetchOutcome.fthrow = true
      ∧ (GET ⟨some "t".data, some "g".data⟩ (some "ann".data)
          FetchOutcome.fthrow).1.status = 200
      ∧ (GET ⟨some "t".data, some "g".data⟩ (some "ann".data)
          FetchOutcome.fthrow).1.avatarUrl = none
      ∧ (GET ⟨some "t".data, some "g".data⟩ (some "ann".data)
          FetchOutcome.fthrow).1.displayName = none :=
  ⟨by decide, by decide,
    resolver_failure_yields_nulls ⟨some "t".data, some "g".data⟩
      (some "ann".data) FetchOutcome.fthrow (by decide) (by decide)⟩

/-- Claim C5: when either directory credential is missing, the route
answers `avatarUrl: null, displayName: null` for every present handle and
never attempts the network call, whatever the network would have done. -/
theorem unconfigured_no_fetch (env : Env) (username : Option Str)
    (net : FetchOutcome) (hu : jsTruthy username = true)
    (hc : jsTruthy env.DISCORD_BOT_TOKEN = false
      ∨ jsTruthy env.DISCORD_GUILD_ID = false) :
    (GET env username net).1.avatarUrl = none
      ∧ (GET env username net).1.displayName = none
      ∧ (GET env username net).2 = false := by
  unfold GET
  rcases hc with h | h <;> simp [hu, h]

/-- Unconfigured environment used by the C5 witness. -/
def c5Env : Env :=
  { DISCORD_BOT_TOKEN := none, DISCORD_GUILD_ID := some "guild".data }

/-- Witness for C5: missing bot token, a fetch outcome that would have
succeeded. -/
theorem unconfigured_no_fetch_witness :
    jsTruthy (some "ann".data) = true
      ∧ (jsTruthy c5Env.DISCORD_BOT_TOKEN = false
          ∨ jsTruthy c5Env.DISCORD_GUILD_ID = false)
      ∧ (GET c5Env (some "ann".data) FetchOutcome.fthrow).1.avatarUrl = none
      ∧ (GET c5Env (some "ann".data) FetchOutcome.fthrow).1.displayName = none
      ∧ (GET c5Env (some "ann".data) FetchOutcome.fthrow).2 = false :=
  ⟨by decide, Or.inl (by decide),
    unconfigured_no_fetch c5Env (some "ann".data) FetchOutcome.fthrow
      (by decide) (Or.inl (by decide))⟩

/-- Claim C4: on a non-empty candidate list the route selects the first
candidate whose username, nickname, or global name equals the query
case-insensitively, and otherwise the first returned candidate; the
response is built from that member. -/
theorem exact_match_selection (env : Env) (username : Option Str)
    (status : Nat) (tthrow : Bool) (m0 : Member) (ms : List Member)
    (hu : jsTruthy username = true)
    (ht : jsTruthy env.DISCORD_BOT_TOKEN = true)
    (hg : jsTruthy env.DISCORD_GUILD_ID = true) :
    GET env username
        (FetchOutcome.response true status (JsonBody.jvalue (some (m0 :: ms)))
          tthrow)
      = (foundResponse (env.DISCORD_GUILD_ID.getD [])
          (((m0 :: ms).find? (isExactMatch (username.getD []))).getD m0), true)
      ∧ ((∀ m ∈ m0 :: ms, isExactMatch (username.getD []) m = false) →
          ((m0 :: ms).find? (isExactMatch (username.getD []))).getD m0 = m0)
      ∧ (∀ (pre : List Member) (x : Member) (post : List Member),
          m0 :: ms = pre ++ x :: post →
          isExactMatch (username.getD []) x = true →
          (∀ y ∈ pre, isExactMatch (username.getD []) y = false) →
          ((m0 :: ms).find? (isExactMatch (username.getD []))).getD m0 = x) := by
  refine ⟨?_, ?_, ?_⟩
  · simp [GET, hu, ht, hg]
  · intro hall
    have hnone : (m0 :: ms).find? (isExactMatch (username.getD [])) = none :=
      List.find?_eq_none.mpr (fun x hx => by simp [hall x hx])
    simp [hnone]
  · intro pre x post hsplit hx hpre
    have hfind : (m0 :: ms).find? (isExactMatch (username.getD [])) = some x := by
      rw [hsplit, List.find?_append]
      have hpre' : pre.find? (isExactMatch (username.getD [])) = none :=
        List.find?_eq_none.mpr (fun y hy => by simp [hpre y hy])
      rw [hpre']
      simp [List.find?_cons, hx]
    simp [hfind]

/-- A candidate that does not match the C4 witness query. -/
def c4Other : Member :=
  { user := { id := "1".data, username := "alice".data
              global_name := none, avatar := none }
    nick := none, avatar := none }

/-- A candidate matching the C4 witness query case-insensitively. -/
def c4Hit : Member :=
  { user := { id := "2".data, username := "BoB".data
              global_name := none, avatar := some "hash".data }
    nick := none, avatar := none }

/-- Environment used by the C4 witness. -/
def c4Env : Env :=
  { DISCORD_BOT_TOKEN := some "token".data, DISCORD_GUILD_ID := some "guild".data }

/-- Witness for C4: a two-candidate list in which the second candidate is
the case-insensitive match. -/
theorem exact_match_selection_witness :
    GET c4Env (some "bob".data)
        (FetchOutcome.response true 200
          (JsonBody.jvalue (some [c4Other, c4Hit])) false)
      = (foundResponse (c4Env.DISCORD_GUILD_ID.getD [])
          (([c4Other, c4Hit].find?
            (isExactMatch ((some "bob".data).getD []))).getD c4Other), true) :=
  (exact_match_selection c4Env (some "bob".data) 200 false c4Other [c4Hit]
    (by decide) (by decide) (by decide)).1

/-- User record for the C3 failing input: a snowflake id congruent to
`2^32 - 1` (decimal value `4294967295`, below `2^53`, so `parseInt` is
exact on it) and no custom avatar. -/
def c3User : DUser :=
  { id := "4294967295".data, username := "someone".data
    global_name := none, avatar := none }

/-- Candidate for the C3 failing input: no guild avatar either, so the
route takes the default-avatar branch. -/
def c3Member : Member := { user := c3User, nick := none, avatar := none }

/-- Configured environment for the C3 failing input. -/
def c3Env : Env :=
  { DISCORD_BOT_TOKEN := some "token".data, DISCORD_GUILD_ID := some "guild".data }

/-- Directory outcome for the C3 failing input: one candidate returned. -/
def c3Net : FetchOutcome :=
  FetchOutcome.response true 200 (JsonBody.jvalue (some [c3Member])) false

/-- Claim C3: the default-avatar branch of the route computes
`(parseInt(user.id) >> 22) % 6`, in which JavaScript `>>` first reduces
the operand to a signed 32-bit integer.  On account id `4294967295` the
route therefore emits default-avatar index `-1` — a URL outside the fixed
set of six default images — while `(id >> 22) mod 6` on the actual
numeric id (as the other route variant computes with `BigInt`) is `3`.
This evaluates the embedded route at that failing input. -/
theorem default_avatar_index_bug :
    (GET c3Env (some "someone".data) c3Net).1.avatarUrl
        = some "https://cdn.discordapp.com/embed/avatars/-1.png".data
      ∧ defaultAvatarIndex "4294967295".data = -1
      ∧ bigIntDefaultIndex "4294967295".data = 3 := by decide
